import Mathlib

/-!
A shallow embedding of the loro text-container merge engine
(`crates/loro-core/src/container/text/text_container.rs`) and of the raw
change store (`crates/loro-framework/src/raw_store.rs`), with theorems about
the behaviour of `TextContainer::insert`, `TextContainer::delete`,
`TextContainer::apply`, `to_export`/`to_import` and `RawStore::verify`.

The two Rust files above are embedded directly.  Their collaborators
(the `VersionVector`, the `Tracker`, the `StringPool`, the `RleTree`
sequence state, and the history-DAG queries of the log store) live in crates
that are not part of the sources; those are modelled from the specification,
each with a doc comment saying so.  The DAG queries and the tracker's effect
stream are kept abstract: the merge procedure is parametric in a record of
query functions (`RStore`) and in an effect oracle, so theorems about it
quantify over every implementation of the collaborators.

Rust panics (`unwrap`, `unreachable`) are modelled by returning `none`:
a call that panics yields no resulting container, so no partially mutated
container is externally visible.
-/

/-- ClientID: opaque stable identifier of a replica (loro uses u64). -/
abbrev ClientID := Nat

/-- Counter is i32 in loro; modelled as Int.  `counterMax` is i32::MAX. -/
def counterMax : Int := 2147483647

/-- OpID = (ClientID, Counter), globally unique. -/
structure ID where
  client_id : ClientID
  counter : Int
deriving DecidableEq

/-- IdSpan = a contiguous run [start, stop) of OpIDs from one client. -/
structure IdSpan where
  client_id : ClientID
  start : Int
  stop : Int
deriving DecidableEq

/-- The last OpID of an IdSpan (`id_span.id_last()`). -/
def IdSpan.idLast (s : IdSpan) : ID := ⟨s.client_id, s.stop - 1⟩

/-- Modelled from the spec: `VersionVector` (loro-core `version.rs` is not in
the sources) maps ClientID to the next-unseen Counter; represented as an
association list with first-occurrence semantics and default entry 0. -/
structure VersionVector where
  entries : List (ClientID × Int)
deriving DecidableEq

/-- Lookup with default 0 over the entry list. -/
def vvGetEntries : List (ClientID × Int) → ClientID → Int
  | [], _ => 0
  | e :: rest, cid => if e.1 = cid then e.2 else vvGetEntries rest cid

/-- Replace the first entry of a client, or append a fresh entry. -/
def vvSetEntries : List (ClientID × Int) → ClientID → Int → List (ClientID × Int)
  | [], cid, v => [(cid, v)]
  | e :: rest, cid, v => if e.1 = cid then (e.1, v) :: rest else e :: vvSetEntries rest cid v

/-- Whether the client has an entry. -/
def vvHasEntries : List (ClientID × Int) → ClientID → Bool
  | [], _ => false
  | e :: rest, cid => if e.1 = cid then true else vvHasEntries rest cid

def VersionVector.get (vv : VersionVector) (cid : ClientID) : Int :=
  vvGetEntries vv.entries cid

def VersionVector.set (vv : VersionVector) (cid : ClientID) (v : Int) : VersionVector :=
  ⟨vvSetEntries vv.entries cid v⟩

def VersionVector.has (vv : VersionVector) (cid : ClientID) : Bool :=
  vvHasEntries vv.entries cid

/-- Modelled from the spec: `vv.set_last(id)` records `id` as the last seen op
of its client, i.e. sets the client's next-unseen counter to `counter + 1`. -/
def VersionVector.set_last (vv : VersionVector) (i : ID) : VersionVector :=
  vv.set i.client_id (i.counter + 1)

/-- Modelled from the spec: `vv.includes_id(id)` — the downward closure test. -/
def VersionVector.includes_id (vv : VersionVector) (i : ID) : Bool :=
  decide (i.counter < vv.get i.client_id)

/-- Modelled from the spec: retreating a version vector past a list of IdSpans
(`vv.retreat(&path)`): each span caps its client's entry at the span start. -/
def VersionVector.retreat (vv : VersionVector) (spans : List IdSpan) : VersionVector :=
  spans.foldl (fun v sp => v.set sp.client_id (min (v.get sp.client_id) sp.start)) vv

/-- Modelled from the spec: the frontier of a version vector (`vv.get_head()`):
the last seen op of every client with a positive entry. -/
def VersionVector.get_head (vv : VersionVector) : List ID :=
  vv.entries.filterMap (fun e => if 0 < e.2 then some (⟨e.1, e.2 - 1⟩ : ID) else none)

/-- ListSlice: `Slice` (local range into the pool), `RawStr` (wire form),
`Unknown` (placeholder), as in loro-core `text_content.rs`. -/
inductive ListSlice where
  | Slice : Nat × Nat → ListSlice
  | RawStr : List Nat → ListSlice
  | Unknown : Nat → ListSlice
deriving DecidableEq

/-- `slice.as_slice()`: the pool range if the slice is in local form. -/
def ListSlice.as_slice : ListSlice → Option (Nat × Nat)
  | .Slice r => some r
  | _ => none

/-- Number of atoms a slice covers. -/
def ListSlice.sliceLen : ListSlice → Nat
  | .Slice r => r.2 - r.1
  | .RawStr s => s.length
  | .Unknown n => n

/-- The two text-container list operations (loro-core `list_op.rs`). -/
inductive ListOp where
  | Insert (slice : ListSlice) (pos : Nat)
  | Delete (pos : Nat) (len : Nat)
deriving DecidableEq

/-- Atom length of a list op: inserted slice length, or deleted length. -/
def ListOp.atomLen : ListOp → Nat
  | .Insert slice _ => slice.sliceLen
  | .Delete _ len => len

/-- Container-relevant op content: `OpContent::Normal { content: List(op) }`
(per the spec this is the only content a text container sees). -/
inductive OpContent where
  | Normal (content : ListOp)
deriving DecidableEq

def OpContent.listOp : OpContent → ListOp
  | .Normal l => l

/-- An operation as stored in a change: per-client counter, container index,
and content. -/
structure Op where
  client_id : ClientID
  counter : Int
  container : Nat
  content : OpContent
deriving DecidableEq

def Op.atomLen (op : Op) : Nat := op.content.listOp.atomLen

/-- Modelled from the spec: slicing one op to its atom sub-range [a, b)
(the rle crate's `Sliceable` is not in the sources). -/
def ListSlice.sliceRange : ListSlice → Nat → Nat → ListSlice
  | .Slice r, a, b => .Slice (r.1 + a, r.1 + b)
  | .RawStr s, a, b => .RawStr ((s.drop a).take (b - a))
  | .Unknown _, a, b => .Unknown (b - a)

/-- Modelled from the spec: `op.slice(a, b)` — counter shifts by `a`, an
insert slices its payload and shifts its position, a delete keeps its
position and shrinks to the sub-range length. -/
def Op.sliceOp (op : Op) (a b : Nat) : Op :=
  { op with
    counter := op.counter + a,
    content := match op.content.listOp with
      | .Insert slice pos => .Normal (.Insert (slice.sliceRange a b) (pos + a))
      | .Delete pos _ => .Normal (.Delete pos (b - a)) }

/-- A change: a run of ops from one client, identified by its first OpID. -/
structure Change where
  id : ID
  ops : List Op
deriving DecidableEq

/-- Modelled from the spec: slicing a list of consecutive ops to the atom
window [a, b). -/
def sliceOpsList : List Op → Nat → Nat → List Op
  | [], _, _ => []
  | op :: rest, a, b =>
    (if a < min op.atomLen b then [op.sliceOp a (min op.atomLen b)] else []) ++
      (if op.atomLen < b then sliceOpsList rest (a - op.atomLen) (b - op.atomLen) else [])

/-- `change.slice(a, b)`: restrict the change's ops to the atom window. -/
def Change.slice (ch : Change) (a b : Nat) : Change :=
  { ch with ops := sliceOpsList ch.ops a b }

/-- The result of `find_path`: spans to retreat (`left`) and spans to
advance (`right`) between two frontiers. -/
structure DagPath where
  left : List IdSpan
  right : List IdSpan
deriving DecidableEq

/-- One element of the `iter_partial` change-slice stream: retreat and
forward spans relative to the previous slice, the originating change, and
the atom sub-range of the change to consider. -/
structure PathSlice where
  retreat : List IdSpan
  forward : List IdSpan
  data : Change
  sliceStart : Nat
  sliceEnd : Nat
deriving DecidableEq

/-- Modelled from the spec: the history-DAG interface of the log store that
`TextContainer::apply` consumes, kept as an abstract record of query
functions (`find_common_ancestor`, `find_path`, `iter_ops_at_id_span`,
`iter_partial`, and container-index lookup). -/
structure RStore where
  getContainerIdx : Nat → Option Nat
  findCommonAncestor : List ID → List ID → List ID
  findPath : List ID → List ID → DagPath
  iterOpsAtIdSpan : IdSpan → Nat → List Op
  iterSlices : List ID → List IdSpan → List PathSlice

/-- Modelled from the spec: the StringPool (loro-core `string_pool.rs` is not
in the sources) is an append-only byte buffer; `alloc` appends and returns
the byte range. -/
def StringPool.alloc (pool : List Nat) (s : List Nat) : (Nat × Nat) × List Nat :=
  ((pool.length, pool.length + s.length), pool ++ s)

/-- Modelled from the spec: `get_str(range)` reads the bytes of a range. -/
def StringPool.getStr (pool : List Nat) (r : Nat × Nat) : List Nat :=
  (pool.drop r.1).take (r.2 - r.1)

/-- Modelled from the spec: the SequenceState (an `RleTree` of pool ranges in
the source) is the visible sequence; it is represented flatly as the list of
pool positions.  `insert(pos, range)` fails loudly when `pos > len()`. -/
def seqInsert (st : List Nat) (pos : Nat) (r : Nat × Nat) : Option (List Nat) :=
  if pos ≤ st.length then some (st.take pos ++ List.range' r.1 (r.2 - r.1) ++ st.drop pos)
  else none

/-- Modelled from the spec: `delete_range(a, b)` removes exactly the positions
[a, b); out-of-range arguments fail loudly. -/
def seqDeleteRange (st : List Nat) (a b : Nat) : Option (List Nat) :=
  if a ≤ b ∧ b ≤ st.length then some (st.take a ++ st.drop b)
  else none

/-- Modelled from the spec: the Tracker's interface state (the tracker module
is not in the sources).  The yata item tree is abstracted away; the model
keeps the bookkeeping the container observes: the start version vector, the
counter offset given at creation, the cursor (`current_vv`), and the largest
known version (`all_vv`). -/
structure Tracker where
  start_vv : VersionVector
  start_counter : Int
  current_vv : VersionVector
  all_vv : VersionVector
deriving DecidableEq

/-- `Tracker::new(start_vv, start_counter)`: fresh tracker cursored at its
start version. -/
def Tracker.new (svv : VersionVector) (sc : Int) : Tracker := ⟨svv, sc, svv, svv⟩

/-- Modelled from the spec: a tracker contains an OpID iff
`start_vv ≤ OpID ≤ all_vv`. -/
def Tracker.contains (t : Tracker) (i : ID) : Bool :=
  decide (t.start_vv.get i.client_id ≤ i.counter) && t.all_vv.includes_id i

/-- `checkout_to_latest`: move the cursor to the largest known version. -/
def Tracker.checkoutToLatest (t : Tracker) : Tracker := { t with current_vv := t.all_vv }

/-- `checkout(vv)`: move the cursor to a given version. -/
def Tracker.checkout (t : Tracker) (vv : VersionVector) : Tracker := { t with current_vv := vv }

/-- Modelled from the spec: retreating moves the cursor backwards past the
given spans. -/
def Tracker.retreat (t : Tracker) (spans : List IdSpan) : Tracker :=
  { t with current_vv := t.current_vv.retreat spans }

/-- Modelled from the spec: forwarding is the inverse of retreat — each span
raises its client's cursor entry to the span end. -/
def vvForward (vv : VersionVector) (spans : List IdSpan) : VersionVector :=
  spans.foldl (fun v sp => v.set sp.client_id (max (v.get sp.client_id) sp.stop)) vv

def Tracker.forward (t : Tracker) (spans : List IdSpan) : Tracker :=
  { t with current_vv := vvForward t.current_vv spans }

/-- Modelled from the spec: `tracker.apply(id, content)` integrates an op run
of `len` atoms; the cursor and the known version extend past its end. -/
def Tracker.applyOp (t : Tracker) (i : ID) (len : Nat) : Tracker :=
  { t with
    current_vv := t.current_vv.set i.client_id (i.counter + len),
    all_vv := t.all_vv.set i.client_id (max (t.all_vv.get i.client_id) (i.counter + len)) }

/-- A net effect emitted by the tracker during stage 2 of the merge. -/
inductive Effect where
  | Del (pos : Nat) (len : Nat)
  | Ins (pos : Nat) (content : ListSlice)
deriving DecidableEq

/-- Applying one effect to the visible sequence (the `match effect` in
`TextContainer::apply`); the `unwrap` on a non-local slice is a panic. -/
def applyEffect (st : List Nat) (e : Effect) : Option (List Nat) :=
  match e with
  | .Del pos len => seqDeleteRange st pos (pos + len)
  | .Ins pos content => content.as_slice.bind (fun r => seqInsert st pos r)

def applyEffects (st : List Nat) (effs : List Effect) : Option (List Nat) :=
  effs.foldlM applyEffect st

/-- Applying one list op directly to the visible sequence (the op match of
the fast paths of `TextContainer::apply`). -/
def applyListOp (st : List Nat) (lop : ListOp) : Option (List Nat) :=
  match lop with
  | .Insert slice pos => slice.as_slice.bind (fun r => seqInsert st pos r)
  | .Delete pos len => seqDeleteRange st pos (pos + len)

/-- Fast path 1 state update: apply each iterated (already sliced) op. -/
def applyOps (st : List Nat) (ops : List Op) : Option (List Nat) :=
  ops.foldlM (fun s op => applyListOp s op.content.listOp) st

/-- Fast path 2 state update: for each change slice, apply the ops that
belong to this container. -/
def applySliceItems (selfIdx : Nat) (st : List Nat) (items : List PathSlice) :
    Option (List Nat) :=
  items.foldlM
    (fun s it =>
      ((it.data.slice it.sliceStart it.sliceEnd).ops.foldlM
        (fun s2 op =>
          if op.container = selfIdx then applyListOp s2 op.content.listOp else some s2)
        s))
    st

/-- Stage 1 of the slow path: walk the change-slice stream, retreat and
forward the tracker, and feed it every op of this container. -/
def stage1 (selfIdx : Nat) (t : Tracker) (items : List PathSlice) : Tracker :=
  items.foldl
    (fun t1 it =>
      ((it.data.slice it.sliceStart it.sliceEnd).ops.foldl
        (fun t2 op =>
          if op.container = selfIdx then
            t2.applyOp ⟨(it.data.slice it.sliceStart it.sliceEnd).id.client_id, op.counter⟩
              op.atomLen
          else t2)
        ((t1.retreat it.retreat).forward it.forward)))
    t

/-- The TextContainer: string pool, visible sequence, tracker, frontier and
version vector, as in `text_container.rs` (the weak log-store back-reference
is dropped; local ops take the store as an argument instead). -/
structure TextContainer where
  id : Nat
  state : List Nat
  raw_str : List Nat
  tracker : Tracker
  head : List ID
  vv : VersionVector
deriving DecidableEq

/-- `TextContainer::new`: empty pool and state, fresh tracker with offset 0,
empty frontier and version vector. -/
def TextContainer.new (cid : Nat) : TextContainer :=
  ⟨cid, [], [], Tracker.new ⟨[]⟩ 0, [], ⟨[]⟩⟩

/-- `text_len()`: the visible length. -/
def TextContainer.text_len (c : TextContainer) : Nat := c.state.length

/-- Modelled from the spec: the slice of the log store that local edits use —
the replica's client id, the next counter to mint, the known containers and
the appended op log. -/
structure LocalStore where
  this_client_id : ClientID
  next_counter : Int
  containers : List Nat
  log : List Op
deriving DecidableEq

/-- `store.next_id()`: the next OpID this replica will mint. -/
def LocalStore.nextId (s : LocalStore) : ID := ⟨s.this_client_id, s.next_counter⟩

/-- `store.get_or_create_container_idx(&id)`. -/
def LocalStore.getOrCreateContainerIdx (s : LocalStore) (cid : Nat) : Nat × LocalStore :=
  match s.containers.findIdx? (fun x => x = cid) with
  | some i => (i, s)
  | none => (s.containers.length, { s with containers := s.containers ++ [cid] })

/-- `store.append_local_ops(&ops)`: append to the log and advance the
counter by the total atom length. -/
def LocalStore.appendLocalOps (s : LocalStore) (ops : List Op) : LocalStore :=
  { s with
    log := s.log ++ ops,
    next_counter := s.next_counter + ops.foldl (fun a o => a + (o.atomLen : Int)) 0 }

/-- `TextContainer::insert(pos, text)`, returning the updated container and
store alongside the Rust return value; `none` is a panic (store gone or
out-of-range position). -/
def TextContainer.insertOp (c : TextContainer) (s : LocalStore) (pos : Nat)
    (text : List Nat) : Option ((TextContainer × LocalStore) × Option ID) :=
  if text.isEmpty then some ((c, s), none)
  else
    (seqInsert c.state pos (StringPool.alloc c.raw_str text).1).map
      (fun st =>
        (({ c with
            raw_str := (StringPool.alloc c.raw_str text).2,
            state := st,
            head := [⟨s.this_client_id,
              s.next_counter + ((ListSlice.Slice (StringPool.alloc c.raw_str text).1).sliceLen : Int) - 1⟩],
            vv := c.vv.set_last ⟨s.this_client_id,
              s.next_counter + ((ListSlice.Slice (StringPool.alloc c.raw_str text).1).sliceLen : Int) - 1⟩ },
          ((s.getOrCreateContainerIdx c.id).2.appendLocalOps
            [⟨s.this_client_id, s.next_counter, (s.getOrCreateContainerIdx c.id).1,
              .Normal (.Insert (.Slice (StringPool.alloc c.raw_str text).1) pos)⟩])),
         some s.nextId))

/-- `TextContainer::delete(pos, len)`; `none` is a panic. -/
def TextContainer.deleteOp (c : TextContainer) (s : LocalStore) (pos len : Nat) :
    Option ((TextContainer × LocalStore) × Option ID) :=
  if len = 0 then some ((c, s), none)
  else
    (seqDeleteRange c.state pos (pos + len)).map
      (fun st =>
        (({ c with
            state := st,
            head := [⟨s.this_client_id, s.next_counter + (len : Int) - 1⟩],
            vv := c.vv.set_last ⟨s.this_client_id, s.next_counter + (len : Int) - 1⟩ },
          ((s.getOrCreateContainerIdx c.id).2.appendLocalOps
            [⟨s.this_client_id, s.next_counter, (s.getOrCreateContainerIdx c.id).1,
              .Normal (.Delete pos len)⟩])),
         some s.nextId))

/-- `TextContainer::to_export(op)`: rewrite a local `Slice` insert payload to
its `RawStr` wire form by reading the pool; every other op is untouched. -/
def TextContainer.to_export (c : TextContainer) (op : Op) : Op :=
  match op.content with
  | .Normal (.Insert (.Slice r) pos) =>
    { op with content := .Normal (.Insert (.RawStr (StringPool.getStr c.raw_str r)) pos) }
  | _ => op

/-- `TextContainer::to_import(op)`: rewrite a `RawStr` insert payload to a
local `Slice` by allocating into the pool; receiving `Slice` or `Unknown`
there is `unreachable` (a panic, modelled as `none`); non-insert ops are
untouched. -/
def TextContainer.to_import (c : TextContainer) (op : Op) : Option (TextContainer × Op) :=
  match op.content with
  | .Normal (.Insert (.RawStr s) pos) =>
    some ({ c with raw_str := (StringPool.alloc c.raw_str s).2 },
      { op with content := .Normal (.Insert (.Slice (StringPool.alloc c.raw_str s).1) pos) })
  | .Normal (.Insert (.Slice _) _) => none
  | .Normal (.Insert (.Unknown _) _) => none
  | _ => some (c, op)

/-- The slow path's common-ancestor version vector: the container's `vv`
retreated past the path from the common ancestors to the head. -/
def commonAncestorsVv (c : TextContainer) (ca : List ID) (store : RStore) : VersionVector :=
  c.vv.retreat (store.findPath ca c.head).right

/-- The slow path's new frontier: the old head elements not swallowed by the
common-ancestor version, with the new OpID pushed at the end. -/
def latestHeadSlow (c : TextContainer) (span : IdSpan) (ca : List ID) (store : RStore) :
    List ID :=
  c.head.filter (fun x => !((commonAncestorsVv c ca store).includes_id x)) ++ [span.idLast]

/-- The tracker-reset test of the slow path: the common-ancestor set is empty
while the tracker's start version is not, or some ancestor is not contained
in the tracker. -/
def trackerResetCond (c : TextContainer) (ca : List ID) : Bool :=
  (ca.isEmpty && !(c.tracker.start_vv.entries.isEmpty))
    || !(ca.all (fun x => c.tracker.contains x))

/-- The tracker and replay head chosen by the slow path: a fresh tracker at
the ancestor version with offset `Counter::MAX / 2` when the reset test
fires, otherwise the existing tracker checked out to its latest position,
replaying from the head of its known version. -/
def trackerAndHead (c : TextContainer) (ca : List ID) (store : RStore) :
    Tracker × List ID :=
  if trackerResetCond c ca then
    (Tracker.new (commonAncestorsVv c ca store) (counterMax / 2), ca)
  else
    (c.tracker.checkoutToLatest, c.tracker.checkoutToLatest.all_vv.get_head)

/-- The tracker after stage 1 and the stage-2 checkout to the container's
current version. -/
def slowTracker (c : TextContainer) (span : IdSpan) (selfIdx : Nat) (ca : List ID)
    (store : RStore) : Tracker :=
  (stage1 selfIdx (trackerAndHead c ca store).1
      (store.iterSlices (trackerAndHead c ca store).2
        (store.findPath (trackerAndHead c ca store).2 (latestHeadSlow c span ca store)).right)).checkout
    c.vv

/-- The slow path of `TextContainer::apply` (lines 222-314 of
`text_container.rs`): build the new frontier, reset or reuse the tracker,
replay stage 1, checkout to `self.vv`, apply the stage-2 effects emitted by
the effect oracle `fx`, and commit `head` and `vv` together with the state. -/
def TextContainer.applySlow (c : TextContainer) (span : IdSpan) (selfIdx : Nat)
    (ca : List ID) (store : RStore) (fx : Tracker → List IdSpan → List Effect) :
    Option TextContainer :=
  (applyEffects c.state
      (fx (slowTracker c span selfIdx ca store)
        (store.findPath c.head (latestHeadSlow c span ca store)).right)).map
    (fun st =>
      { c with
        state := st,
        tracker := (slowTracker c span selfIdx ca store).forward
            (store.findPath c.head (latestHeadSlow c span ca store)).right,
        head := latestHeadSlow c span ca store,
        vv := c.vv.set_last span.idLast })

/-- `TextContainer::apply(id_span, store)` (lines 148-314): look up the
container index (`unwrap` — a panic when absent), then fast path 1 (linear
extension), fast path 2 (no retreat or forward needed), or the slow path. -/
def TextContainer.applyC (c : TextContainer) (span : IdSpan) (store : RStore)
    (fx : Tracker → List IdSpan → List Effect) : Option TextContainer :=
  (store.getContainerIdx c.id).bind
    (fun selfIdx =>
      if store.findCommonAncestor [span.idLast] c.head = c.head then
        if (store.findPath c.head [span.idLast]).right.length = 1 then
          (applyOps c.state
              (store.iterOpsAtIdSpan
                ⟨span.idLast.client_id, c.vv.get span.idLast.client_id,
                  span.idLast.counter + 1⟩
                c.id)).map
            (fun st =>
              { c with
                state := st,
                head := [span.idLast],
                vv := c.vv.set_last span.idLast })
        else
          if (store.iterSlices c.head (store.findPath c.head [span.idLast]).right).all
              (fun x => x.forward.isEmpty && x.retreat.isEmpty) then
            (applySliceItems selfIdx c.state
                (store.iterSlices c.head (store.findPath c.head [span.idLast]).right)).map
              (fun st =>
                { c with
                  state := st,
                  head := [span.idLast],
                  vv := c.vv.set_last span.idLast })
          else
            c.applySlow span selfIdx (store.findCommonAncestor [span.idLast] c.head)
              store fx
      else
        c.applySlow span selfIdx (store.findCommonAncestor [span.idLast] c.head)
          store fx)

/-- Modelled from the spec: one change record of the raw store
(`raw_change.rs` is not in the sources): an opaque payload and an optional
cached hash. -/
structure ChangeData where
  data : Nat
  hash : Option Nat
deriving DecidableEq

/-- A MAC over a client's change log ([u8; 32] in the source). -/
abbrev Mac := List Nat

/-- `RawStore` of `raw_store.rs`: per-client change logs and an optional MAC
table. -/
structure RawStore where
  changes : List (ClientID × List ChangeData)
  macs : Option (List (ClientID × Mac))
deriving DecidableEq

def RawStore.new : RawStore := ⟨[], none⟩

/-- `maced()`: whether a MAC table is present. -/
def RawStore.maced (s : RawStore) : Bool := s.macs.isSome

/-- The `start_index` scan of `calc_hash`: one past the last cached hash. -/
def startIndex (l : List ChangeData) : Nat :=
  match l.reverse.findIdx? (fun cd => cd.hash.isSome) with
  | some j => l.length - j
  | none => 0

/-- Recompute the hash chain from a previous hash onwards; the combine
function stands for `ChangeData::update_hash`, whose body is not in the
sources. -/
def recomputeHashes (hf : Nat → Option Nat → Nat) :
    Option Nat → List ChangeData → List ChangeData
  | _, [] => []
  | prev, cd :: rest =>
    { cd with hash := some (hf cd.data prev) }
      :: recomputeHashes hf (some (hf cd.data prev)) rest

/-- `calc_hash` applied to one client's change vector. -/
def calcHashClient (hf : Nat → Option Nat → Nat) (l : List ChangeData) : List ChangeData :=
  l.take (startIndex l)
    ++ recomputeHashes hf ((l.take (startIndex l)).getLast?.bind (fun cd => cd.hash))
      (l.drop (startIndex l))

/-- `RawStore::calc_hash`. -/
def RawStore.calcHash (s : RawStore) (hf : Nat → Option Nat → Nat) : RawStore :=
  { s with changes := s.changes.map (fun e => (e.1, calcHashClient hf e.2)) }

/-- `RawStore::verify(pub_key)` returning the flag and the (possibly hashed)
store; the `todo!()` inside the MAC-comparison loop is a panic, modelled as
`none`, reached only when the loop body runs at least once. -/
def RawStore.verify (s : RawStore) (hf : Nat → Option Nat → Nat) (_pubKey : List Nat) :
    Option (Bool × RawStore) :=
  match s.macs with
  | none => some (true, s)
  | some macs =>
    if macs.length < s.changes.length then some (false, s)
    else
      match macs with
      | [] => some (true, s.calcHash hf)
      | _ :: _ => none

/-- One entry of a concrete causal op log, used to state causal ancestry for
counterexamples: an IdSpan's worth of ops with its dependency frontier. -/
structure LogEntry where
  id : ID
  len : Int
  deps : List ID
deriving DecidableEq

/-- Whether a log entry's span covers an OpID. -/
def coversId (e : LogEntry) (i : ID) : Bool :=
  decide (e.id.client_id = i.client_id) && decide (e.id.counter ≤ i.counter)
    && decide (i.counter < e.id.counter + e.len)

/-- The direct causal dependencies of an OpID in a concrete log: the deps of
its change, plus its same-change predecessor. -/
def depsOf (log : List LogEntry) (i : ID) : List ID :=
  match log.find? (fun e => coversId e i) with
  | some e => e.deps ++ (if e.id.counter < i.counter then [⟨i.client_id, i.counter - 1⟩] else [])
  | none => []

/-- Fuel-bounded strict causal ancestry over a concrete log. -/
def isAncestorB (log : List LogEntry) : Nat → ID → ID → Bool
  | 0, _, _ => false
  | n + 1, a, b => (depsOf log b).any (fun d => d = a || isAncestorB log n a d)

/-- The trivial effect oracle: no stage-2 effects.  It is the correct oracle
whenever the stage-2 path is empty, since `iter_effects` over an empty path
emits nothing. -/
def fxNil : Tracker → List IdSpan → List Effect := fun _ _ => []

/-- A container holding the byte 97 in its pool, fresh otherwise. -/
def wC1 : TextContainer :=
  { TextContainer.new 0 with raw_str := [97] }

/-- A log store for a single op (0,0) inserting pool byte 0 at position 0:
the DAG answers for a fresh container receiving that op as a linear
extension. -/
def wStore1 : RStore :=
  ⟨fun _ => some 0,
   fun _ _ => [],
   fun _ _ => ⟨[], [⟨0, 0, 1⟩]⟩,
   fun _ _ => [⟨0, 0, 0, .Normal (.Insert (.Slice (0, 1)) 0)⟩],
   fun _ _ => []⟩

/-- The container `wC1` after applying op (0,0) through fast path 1. -/
def wC1res : TextContainer :=
  ⟨0, [0], [97], Tracker.new ⟨[]⟩ 0, [⟨0, 0⟩], ⟨[(0, 1)]⟩⟩

/-- A container that has already applied ops (0,0) and (0,1) of client 0:
state "ab", head at (0,1), vv {0 ↦ 2}. -/
def exC3 : TextContainer :=
  ⟨0, [0, 1], [97, 98], Tracker.new ⟨[]⟩ 0, [⟨0, 1⟩], ⟨[(0, 2)]⟩⟩

/-- The DAG of a single client 0 with the two-op chain (0,0) → (0,1),
answering the queries made when op (0,0) is applied again to `exC3`:
the common ancestor of {(0,0)} and {(0,1)} is {(0,0)}; the path from
{(0,0)} to any frontier containing (0,1) advances the span (0,[1,2)); the
path from {(0,1)} to the (dominated-element) frontier [(0,1),(0,0)] is
empty; iterating from {(0,0)} over that span yields the change of op (0,1)
with no retreat and no forward. -/
def exStore3 : RStore :=
  ⟨fun _ => some 0,
   fun _ _ => [⟨0, 0⟩],
   fun f _ => if f = [(⟨0, 1⟩ : ID)] then ⟨[], []⟩ else ⟨[], [⟨0, 1, 2⟩]⟩,
   fun _ _ => [],
   fun f _ =>
     if f = [(⟨0, 0⟩ : ID)] then
       [⟨[], [], ⟨⟨0, 1⟩, [⟨0, 1, 0, .Normal (.Insert (.Slice (1, 2)) 1)⟩]⟩, 0, 1⟩]
     else []⟩

/-- The container `exC3` after re-applying the already-included op (0,0):
the state is untouched but the head has gained the dominated id (0,0) and
the vv entry of client 0 has been rewritten to 1. -/
def exC3res : TextContainer :=
  ⟨0, [0, 1], [97, 98],
   ⟨⟨[(0, 1)]⟩, 1073741823, ⟨[(0, 2)]⟩, ⟨[(0, 2)]⟩⟩,
   [⟨0, 1⟩, ⟨0, 0⟩], ⟨[(0, 1)]⟩⟩

/-- A fresh container whose pool already holds the payloads of the two
remote ops of the `exStore4` scenario. -/
def exC4 : TextContainer :=
  { TextContainer.new 0 with raw_str := [98, 97] }

/-- The causal log of the `exStore4` scenario: change (1,0) with no deps,
change (0,0) depending on (1,0). -/
def exLog4 : List LogEntry :=
  [⟨⟨1, 0⟩, 1, []⟩, ⟨⟨0, 0⟩, 1, [⟨1, 0⟩]⟩]

/-- The DAG answers for applying op (0,0) (which causally depends on the
never-before-seen op (1,0)) to the fresh container `exC4`: the common
ancestors with the empty head are empty; the path from the empty frontier
to {(0,0)} advances (1,[0,1)) then (0,[0,1)); iterating it yields the two
changes in causal order with no retreat and no forward. -/
def exStore4 : RStore :=
  ⟨fun _ => some 0,
   fun _ _ => [],
   fun _ _ => ⟨[], [⟨1, 0, 1⟩, ⟨0, 0, 1⟩]⟩,
   fun _ _ => [],
   fun _ _ =>
     [⟨[], [], ⟨⟨1, 0⟩, [⟨1, 0, 0, .Normal (.Insert (.Slice (0, 1)) 0)⟩]⟩, 0, 1⟩,
      ⟨[], [], ⟨⟨0, 0⟩, [⟨0, 0, 0, .Normal (.Insert (.Slice (1, 2)) 0)⟩]⟩, 0, 1⟩]⟩

/-- The container `exC4` after the fast-path-2 merge of op (0,0): the state
reflects both remote ops, but the vv records only client 0. -/
def exC4res : TextContainer :=
  ⟨0, [1, 0], [98, 97], Tracker.new ⟨[]⟩ 0, [⟨0, 0⟩], ⟨[(0, 1)]⟩⟩

/-- A store whose DAG answers describe re-applying the head op itself: the
common ancestor of {(0,0)} and {(0,0)} is {(0,0)} and every path is empty. -/
def wStoreId : RStore :=
  ⟨fun _ => some 0,
   fun _ _ => [⟨0, 0⟩],
   fun _ _ => ⟨[], []⟩,
   fun _ _ => [],
   fun _ _ => []⟩

/-- A container whose head is the singleton (0,0) with vv {0 ↦ 1}. -/
def wCHead : TextContainer :=
  ⟨0, [0], [97], Tracker.new ⟨[]⟩ 0, [⟨0, 0⟩], ⟨[(0, 1)]⟩⟩

/-- A container that has applied ops (0,0) and (0,1) of client 0 over the
three-byte pool [97, 98, 99]: state [0, 1], head {(0,1)}, vv {0 ↦ 2},
fresh tracker. -/
def exC5 : TextContainer :=
  ⟨0, [0, 1], [97, 98, 99], Tracker.new ⟨[]⟩ 0, [⟨0, 1⟩], ⟨[(0, 2)]⟩⟩

/-- The DAG answers for applying op (2,0) with deps {(0,1), (1,0)} to
`exC5`, where (1,0) depends on (0,0) only and is hence concurrent with the
already-seen (0,1): the common ancestors of {(2,0)} and the head {(0,1)}
are {(0,1)} (equal to the head), the path from the head to {(2,0)} advances
the two spans (1,[0,1)) and (2,[0,1)), and iterating it must first retreat
past (0,1) to apply (1,0) and then forward again for (2,0) — so fast path 2
is refused and `apply` falls through to the slow path. -/
def exStore5 : RStore :=
  ⟨fun _ => some 0,
   fun _ _ => [⟨0, 1⟩],
   fun _ t => if t = [(⟨0, 1⟩ : ID)] then ⟨[], []⟩ else ⟨[], [⟨1, 0, 1⟩, ⟨2, 0, 1⟩]⟩,
   fun _ _ => [],
   fun _ _ =>
     [⟨[⟨0, 1, 2⟩], [], ⟨⟨1, 0⟩, [⟨1, 0, 0, .Normal (.Insert (.Slice (2, 3)) 1)⟩]⟩, 0, 1⟩,
      ⟨[], [⟨0, 1, 2⟩], ⟨⟨2, 0⟩, [⟨2, 0, 0, .Normal (.Insert (.Slice (0, 1)) 0)⟩]⟩, 0, 1⟩]⟩

/-- The container `exC5` after the fall-through slow-path merge of op
(2,0) under the trivial effect oracle: the reset test fired, so the tracker
was rebuilt at the ancestor version {0 ↦ 2} with offset 1073741823. -/
def exC5res : TextContainer :=
  ⟨0, [0, 1], [97, 98, 99],
   ⟨⟨[(0, 2)]⟩, 1073741823, ⟨[(0, 2), (1, 1), (2, 1)]⟩, ⟨[(0, 2), (1, 1), (2, 1)]⟩⟩,
   [⟨2, 0⟩], ⟨[(0, 2), (2, 1)]⟩⟩

theorem vvGet_set_self (l : List (ClientID × Int)) (cid : ClientID) (v : Int) :
    vvGetEntries (vvSetEntries l cid v) cid = v := by
  induction l with
  | nil => simp [vvSetEntries, vvGetEntries]
  | cons e rest ih =>
    by_cases h : e.1 = cid
    · simp only [vvSetEntries]
      rw [if_pos h]
      simp only [vvGetEntries]
      rw [if_pos h]
    · simp only [vvSetEntries]
      rw [if_neg h]
      simp only [vvGetEntries]
      rw [if_neg h]
      exact ih

theorem vvGet_set_ne (l : List (ClientID × Int)) (cid cid' : ClientID) (v : Int)
    (h : cid' ≠ cid) :
    vvGetEntries (vvSetEntries l cid v) cid' = vvGetEntries l cid' := by
  induction l with
  | nil =>
    simp only [vvSetEntries, vvGetEntries]
    rw [if_neg (fun hc => h hc.symm)]
  | cons e rest ih =>
    simp only [vvSetEntries]
    by_cases he : e.1 = cid
    · rw [if_pos he]
      have hne : ¬ e.1 = cid' := fun hc => h (hc.symm.trans he)
      simp only [vvGetEntries]
      rw [if_neg hne, if_neg hne]
    · rw [if_neg he]
      simp only [vvGetEntries]
      by_cases he' : e.1 = cid'
      · rw [if_pos he', if_pos he']
      · rw [if_neg he', if_neg he', ih]

theorem vvSet_eq_self (l : List (ClientID × Int)) (cid : ClientID) (v : Int)
    (hhas : vvHasEntries l cid = true) (hget : vvGetEntries l cid = v) :
    vvSetEntries l cid v = l := by
  induction l with
  | nil => simp [vvHasEntries] at hhas
  | cons e rest ih =>
    simp only [vvGetEntries] at hget
    simp only [vvHasEntries] at hhas
    simp only [vvSetEntries]
    by_cases h : e.1 = cid
    · rw [if_pos h] at hget
      rw [if_pos h, ← hget]
    · rw [if_neg h] at hget
      rw [if_neg h] at hhas
      rw [if_neg h, ih hhas hget]

theorem trackerFold_start {α : Type} (f : Tracker → α → Tracker)
    (hf : ∀ t a, (f t a).start_vv = t.start_vv ∧ (f t a).start_counter = t.start_counter)
    (l : List α) (t : Tracker) :
    (l.foldl f t).start_vv = t.start_vv ∧ (l.foldl f t).start_counter = t.start_counter := by
  induction l generalizing t with
  | nil => exact ⟨rfl, rfl⟩
  | cons a rest ih =>
    have h1 := hf t a
    have h2 := ih (f t a)
    exact ⟨h2.1.trans h1.1, h2.2.trans h1.2⟩

theorem stage1_start (selfIdx : Nat) (t : Tracker) (items : List PathSlice) :
    (stage1 selfIdx t items).start_vv = t.start_vv ∧
      (stage1 selfIdx t items).start_counter = t.start_counter := by
  unfold stage1
  refine trackerFold_start _ (fun t1 it => ?_) items t
  refine (trackerFold_start _ (fun t2 op => ?_) _ _).imp
      (fun h1 => h1.trans rfl) (fun h2 => h2.trans rfl)
  by_cases h : op.container = selfIdx <;> simp [h, Tracker.applyOp]

theorem slowTracker_start (c : TextContainer) (span : IdSpan) (selfIdx : Nat)
    (ca : List ID) (store : RStore) :
    (slowTracker c span selfIdx ca store).start_vv = (trackerAndHead c ca store).1.start_vv ∧
      (slowTracker c span selfIdx ca store).start_counter
        = (trackerAndHead c ca store).1.start_counter := by
  unfold slowTracker
  exact ⟨(stage1_start _ _ _).1, (stage1_start _ _ _).2⟩

theorem applySlow_some (c : TextContainer) (span : IdSpan) (selfIdx : Nat)
    (ca : List ID) (store : RStore) (fx : Tracker → List IdSpan → List Effect)
    (c' : TextContainer)
    (h : c.applySlow span selfIdx ca store fx = some c') :
    c'.vv = c.vv.set_last span.idLast ∧
      c'.head = latestHeadSlow c span ca store ∧
      c'.raw_str = c.raw_str ∧
      c'.id = c.id ∧
      c'.tracker = (slowTracker c span selfIdx ca store).forward
          (store.findPath c.head (latestHeadSlow c span ca store)).right := by
  unfold TextContainer.applySlow at h
  rw [Option.map_eq_some'] at h
  obtain ⟨st, -, rfl⟩ := h
  exact ⟨rfl, rfl, rfl, rfl, rfl⟩

/-- C1: merge atomicity.  Every terminating (non-panicking) call to
`TextContainer::apply` commits the visible state, `head` and `vv` together
at a single return point: whenever `apply` completes with a new container,
its `vv` is the old `vv` with the new OpID recorded and its `head` ends in
the new OpID (and the pool is untouched) — on all three paths.  A call that
panics yields no container at all, so no intermediate outcome in which the
state is changed but `head`/`vv` are not is externally visible. -/
theorem apply_commits_head_vv_together (c : TextContainer) (span : IdSpan) (store : RStore)
    (fx : Tracker → List IdSpan → List Effect) (c' : TextContainer)
    (h : c.applyC span store fx = some c') :
    c'.vv = c.vv.set_last span.idLast ∧
      c'.head.getLast? = some span.idLast ∧
      c'.raw_str = c.raw_str := by
  unfold TextContainer.applyC at h
  rw [Option.bind_eq_some] at h
  obtain ⟨selfIdx, -, h⟩ := h
  by_cases h1 : store.findCommonAncestor [span.idLast] c.head = c.head
  · rw [if_pos h1] at h
    by_cases h2 : (store.findPath c.head [span.idLast]).right.length = 1
    · rw [if_pos h2, Option.map_eq_some'] at h
      obtain ⟨st, -, rfl⟩ := h
      exact ⟨rfl, rfl, rfl⟩
    · rw [if_neg h2] at h
      by_cases h3 : (store.iterSlices c.head (store.findPath c.head [span.idLast]).right).all
          (fun x => x.forward.isEmpty && x.retreat.isEmpty) = true
      · rw [if_pos h3, Option.map_eq_some'] at h
        obtain ⟨st, -, rfl⟩ := h
        exact ⟨rfl, rfl, rfl⟩
      · rw [if_neg h3] at h
        obtain ⟨hv, hh, hr, -, -⟩ := applySlow_some _ _ _ _ _ _ _ h
        refine ⟨hv, ?_, hr⟩
        rw [hh]
        exact List.getLast?_concat _
  · rw [if_neg h1] at h
    obtain ⟨hv, hh, hr, -, -⟩ := applySlow_some _ _ _ _ _ _ _ h
    refine ⟨hv, ?_, hr⟩
    rw [hh]
    exact List.getLast?_concat _

/-- C1 witness: the linear-extension scenario `wC1`/`wStore1` reaches the
conclusion of `apply_commits_head_vv_together` at a concrete input. -/
theorem apply_commits_head_vv_together_witness :
    wC1.applyC ⟨0, 0, 1⟩ wStore1 fxNil = some wC1res ∧
      wC1res.vv = wC1.vv.set_last (IdSpan.idLast ⟨0, 0, 1⟩) ∧
      wC1res.head.getLast? = some (IdSpan.idLast ⟨0, 0, 1⟩) ∧
      wC1res.raw_str = wC1.raw_str := by
  have hs : wC1.applyC ⟨0, 0, 1⟩ wStore1 fxNil = some wC1res := by decide
  have h := apply_commits_head_vv_together wC1 ⟨0, 0, 1⟩ wStore1 fxNil wC1res hs
  exact ⟨hs, h.1, h.2.1, h.2.2⟩

/-- C2: fast path 1 (linear extension).  When the common-ancestor frontier
of the new op and `self.head` equals `self.head` and the path from the head
to the new frontier is a single IdSpan, `apply` feeds the ops iterated from
`vv[client]` up to the new op's counter directly into the visible state,
leaves the tracker (and the pool) completely unchanged, and afterwards the
head is the singleton of the new OpID and `vv` records it. -/
theorem apply_fast_linear (c : TextContainer) (span : IdSpan) (store : RStore)
    (fx : Tracker → List IdSpan → List Effect) (c' : TextContainer)
    (h1 : store.findCommonAncestor [span.idLast] c.head = c.head)
    (h2 : (store.findPath c.head [span.idLast]).right.length = 1)
    (h : c.applyC span store fx = some c') :
    c'.tracker = c.tracker ∧
      c'.head = [span.idLast] ∧
      c'.vv = c.vv.set_last span.idLast ∧
      c'.raw_str = c.raw_str ∧
      applyOps c.state
          (store.iterOpsAtIdSpan
            ⟨span.idLast.client_id, c.vv.get span.idLast.client_id, span.idLast.counter + 1⟩
            c.id)
        = some c'.state := by
  unfold TextContainer.applyC at h
  rw [Option.bind_eq_some] at h
  obtain ⟨selfIdx, -, h⟩ := h
  rw [if_pos h1, if_pos h2, Option.map_eq_some'] at h
  obtain ⟨st, hst, rfl⟩ := h
  exact ⟨rfl, rfl, rfl, rfl, hst⟩

/-- C2 witness: the scenario `wC1`/`wStore1` satisfies both fast-path-1
hypotheses and the conclusion of `apply_fast_linear` concretely. -/
theorem apply_fast_linear_witness :
    wC1.applyC ⟨0, 0, 1⟩ wStore1 fxNil = some wC1res ∧
      wC1res.tracker = wC1.tracker ∧
      wC1res.head = [IdSpan.idLast ⟨0, 0, 1⟩] ∧
      wC1res.state = [0] := by
  have hs : wC1.applyC ⟨0, 0, 1⟩ wStore1 fxNil = some wC1res := by decide
  have h := apply_fast_linear wC1 ⟨0, 0, 1⟩ wStore1 fxNil wC1res (by decide) (by decide) hs
  exact ⟨hs, h.1, h.2.1, by decide⟩

/-- C3 counterexample: idempotence of `apply` fails as stated.  The
container `exC3` has already applied ops (0,0) and (0,1) of client 0
(so (0,0) is included in its vv), but re-applying (0,0) takes the slow
path — the common ancestor {(0,0)} differs from the head {(0,1)} — which
unconditionally pushes the dominated id (0,0) onto the head and rewrites
the client's vv entry down to 1: the visible state is unchanged, but
`head` and `vv` both change. -/
theorem apply_idempotence_counterexample :
    exC3.vv.includes_id ⟨0, 0⟩ = true ∧
      exC3.head = [⟨0, 1⟩] ∧
      (exC3.applyC ⟨0, 0, 1⟩ exStore3 fxNil).map (fun c' => c'.head)
        = some [⟨0, 1⟩, ⟨0, 0⟩] ∧
      [(⟨0, 1⟩ : ID), ⟨0, 0⟩] ≠ [(⟨0, 1⟩ : ID)] ∧
      (exC3.applyC ⟨0, 0, 1⟩ exStore3 fxNil).map (fun c' => c'.vv)
        = some ⟨[(0, 1)]⟩ ∧
      exC3.vv ≠ ⟨[(0, 1)]⟩ ∧
      (exC3.applyC ⟨0, 0, 1⟩ exStore3 fxNil).map (fun c' => c'.state)
        = some exC3.state := by
  decide

/-- C3 amended: applying a duplicate op is a no-op on state, head and vv
when the duplicate is the container's current head op — `head` is the
singleton of its id and the client's vv entry is exactly `counter + 1`.
(When the duplicate is older than the head the code instead re-runs the
merge and extends the head, see the counterexample.) -/
theorem apply_idempotent_at_head (c : TextContainer) (span : IdSpan) (store : RStore)
    (fx : Tracker → List IdSpan → List Effect) (c' : TextContainer)
    (hca : store.findCommonAncestor [span.idLast] c.head = c.head)
    (hhead : c.head = [span.idLast])
    (hpath : (store.findPath c.head [span.idLast]).right = [])
    (hiter : store.iterSlices c.head [] = [])
    (hhas : c.vv.has span.idLast.client_id = true)
    (hget : c.vv.get span.idLast.client_id = span.idLast.counter + 1)
    (h : c.applyC span store fx = some c') :
    c'.state = c.state ∧ c'.head = c.head ∧ c'.vv = c.vv := by
  unfold TextContainer.applyC at h
  rw [Option.bind_eq_some] at h
  obtain ⟨selfIdx, -, h⟩ := h
  rw [if_pos hca, hpath, hiter] at h
  rw [if_neg (by simp)] at h
  rw [if_pos (by simp)] at h
  simp only [applySliceItems, List.foldlM_nil, Option.map_eq_some'] at h
  obtain ⟨st, hst, rfl⟩ := h
  obtain rfl : c.state = st := by
    simpa using hst
  refine ⟨rfl, hhead.symm, ?_⟩
  show c.vv.set_last span.idLast = c.vv
  unfold VersionVector.set_last VersionVector.set
  rw [vvSet_eq_self c.vv.entries span.idLast.client_id (span.idLast.counter + 1) hhas hget]

/-- C3 witness: re-applying the head op (0,0) of `wCHead` through
`wStoreId` leaves state, head and vv unchanged, by
`apply_idempotent_at_head` at a concrete input. -/
theorem apply_idempotent_at_head_witness :
    wCHead.applyC ⟨0, 0, 1⟩ wStoreId fxNil = some wCHead ∧
      wCHead.vv.includes_id (IdSpan.idLast ⟨0, 0, 1⟩) = true := by
  have hs : wCHead.applyC ⟨0, 0, 1⟩ wStoreId fxNil = some wCHead := by
    have h0 : ∀ c'', wCHead.applyC ⟨0, 0, 1⟩ wStoreId fxNil = some c'' →
        c''.state = wCHead.state ∧ c''.head = wCHead.head ∧ c''.vv = wCHead.vv :=
      fun c'' h'' => apply_idempotent_at_head wCHead ⟨0, 0, 1⟩ wStoreId fxNil c''
        (by decide) (by decide) (by decide) (by decide) (by decide) (by decide) h''
    decide
  exact ⟨hs, by decide⟩

theorem applyC_vv_eq (c : TextContainer) (span : IdSpan) (store : RStore)
    (fx : Tracker → List IdSpan → List Effect) (c' : TextContainer)
    (h : c.applyC span store fx = some c') :
    c'.vv = c.vv.set_last span.idLast := by
  unfold TextContainer.applyC at h
  rw [Option.bind_eq_some] at h
  obtain ⟨selfIdx, -, h⟩ := h
  by_cases h1 : store.findCommonAncestor [span.idLast] c.head = c.head
  · rw [if_pos h1] at h
    by_cases h2 : (store.findPath c.head [span.idLast]).right.length = 1
    · rw [if_pos h2, Option.map_eq_some'] at h
      obtain ⟨st, -, rfl⟩ := h
      rfl
    · rw [if_neg h2] at h
      by_cases h3 : (store.iterSlices c.head (store.findPath c.head [span.idLast]).right).all
          (fun x => x.forward.isEmpty && x.retreat.isEmpty) = true
      · rw [if_pos h3, Option.map_eq_some'] at h
        obtain ⟨st, -, rfl⟩ := h
        rfl
      · rw [if_neg h3] at h
        exact (applySlow_some _ _ _ _ _ _ _ h).1
  · rw [if_neg h1] at h
    exact (applySlow_some _ _ _ _ _ _ _ h).1

/-- C4 counterexample: the causal-consistency postcondition fails as
stated.  In the log `exLog4` op (1,0) is a causal ancestor of op (0,0);
applying (0,0) to the fresh container `exC4` goes through fast path 2 and
applies both inserts to the visible state (which becomes the two pool
positions [1, 0]), yet on return the vv does not include the ancestor
(1,0): `apply` records only the new op's own client entry. -/
theorem apply_causal_vv_counterexample :
    isAncestorB exLog4 2 ⟨1, 0⟩ ⟨0, 0⟩ = true ∧
      (exC4.applyC ⟨0, 0, 1⟩ exStore4 fxNil).map (fun c' => c'.state) = some [1, 0] ∧
      (exC4.applyC ⟨0, 0, 1⟩ exStore4 fxNil).map (fun c' => c'.vv.includes_id ⟨1, 0⟩)
        = some false := by
  decide

/-- C4 amended: when `apply` returns, `self.vv` includes the new OpID (and
with it every same-client op of smaller counter), but nothing else changes
in the vv: for every other client the inclusion test is exactly what it was
before the call, so causal ancestors from other clients are reflected in
`vv` only if they already were. -/
theorem apply_vv_records_only_new_op (c : TextContainer) (span : IdSpan) (store : RStore)
    (fx : Tracker → List IdSpan → List Effect) (c' : TextContainer)
    (h : c.applyC span store fx = some c') :
    c'.vv.includes_id span.idLast = true ∧
      ∀ a : ID, a.client_id ≠ span.idLast.client_id →
        c'.vv.includes_id a = c.vv.includes_id a := by
  have hv := applyC_vv_eq c span store fx c' h
  rw [hv]
  constructor
  · have hg : (c.vv.set_last span.idLast).get span.idLast.client_id
        = span.idLast.counter + 1 := vvGet_set_self _ _ _
    show decide (span.idLast.counter
        < (c.vv.set_last span.idLast).get span.idLast.client_id) = true
    rw [hg]
    exact decide_eq_true (lt_add_one _)
  · intro a ha
    have hg : (c.vv.set_last span.idLast).get a.client_id = c.vv.get a.client_id :=
      vvGet_set_ne _ _ _ _ ha
    show decide (a.counter < (c.vv.set_last span.idLast).get a.client_id)
        = decide (a.counter < c.vv.get a.client_id)
    rw [hg]

/-- C4 witness: in the `exC4`/`exStore4` merge the amended statement holds
concretely — the new op (0,0) is included afterwards, and client 1's
inclusion is unchanged (absent before, absent after). -/
theorem apply_vv_records_only_new_op_witness :
    exC4.applyC ⟨0, 0, 1⟩ exStore4 fxNil = some exC4res ∧
      exC4res.vv.includes_id (IdSpan.idLast ⟨0, 0, 1⟩) = true ∧
      exC4res.vv.includes_id ⟨1, 0⟩ = exC4.vv.includes_id ⟨1, 0⟩ := by
  have hs : exC4.applyC ⟨0, 0, 1⟩ exStore4 fxNil = some exC4res := by decide
  have h := apply_vv_records_only_new_op exC4 ⟨0, 0, 1⟩ exStore4 fxNil exC4res hs
  exact ⟨hs, h.1, h.2 ⟨1, 0⟩ (by decide)⟩

/-- C5: tracker reset policy.  On the slow path — entered either because
the common ancestors differ from the head, or by fall-through when they
coincide but the path is not a single span and some change slice needs a
retreat or forward — if the common-ancestor frontier cannot be represented
by the current tracker (`trackerResetCond`: the ancestor set is empty while
the tracker's start_vv is non-empty, or some ancestor OpID is not contained
in the tracker) the resulting container carries a tracker rebuilt at the
common ancestors' version vector with counter offset `Counter::MAX / 2`;
otherwise the existing tracker is kept (checked out to its latest position
for the replay) and its start version and offset survive unchanged. -/
theorem apply_tracker_reset_policy (c : TextContainer) (span : IdSpan) (store : RStore)
    (fx : Tracker → List IdSpan → List Effect) (c' : TextContainer)
    (hslow : store.findCommonAncestor [span.idLast] c.head ≠ c.head ∨
      ((store.findPath c.head [span.idLast]).right.length ≠ 1 ∧
        ¬ ((store.iterSlices c.head (store.findPath c.head [span.idLast]).right).all
            (fun x => x.forward.isEmpty && x.retreat.isEmpty) = true)))
    (h : c.applyC span store fx = some c') :
    (trackerResetCond c (store.findCommonAncestor [span.idLast] c.head) = true →
      c'.tracker.start_vv
          = commonAncestorsVv c (store.findCommonAncestor [span.idLast] c.head) store ∧
        c'.tracker.start_counter = counterMax / 2) ∧
      (trackerResetCond c (store.findCommonAncestor [span.idLast] c.head) = false →
        c'.tracker.start_vv = c.tracker.start_vv ∧
          c'.tracker.start_counter = c.tracker.start_counter) := by
  unfold TextContainer.applyC at h
  rw [Option.bind_eq_some] at h
  obtain ⟨selfIdx, -, h⟩ := h
  have hs : c.applySlow span selfIdx (store.findCommonAncestor [span.idLast] c.head)
      store fx = some c' := by
    by_cases h1 : store.findCommonAncestor [span.idLast] c.head = c.head
    · rcases hslow with hne | ⟨h2, h3⟩
      · exact absurd h1 hne
      · rw [if_pos h1, if_neg h2, if_neg h3] at h
        exact h
    · rw [if_neg h1] at h
      exact h
  obtain ⟨-, -, -, -, ht⟩ := applySlow_some _ _ _ _ _ _ _ hs
  have hst := slowTracker_start c span selfIdx
    (store.findCommonAncestor [span.idLast] c.head) store
  constructor
  · intro hcond
    constructor
    · rw [ht]
      show (slowTracker c span selfIdx
          (store.findCommonAncestor [span.idLast] c.head) store).start_vv = _
      rw [hst.1]
      unfold trackerAndHead
      rw [if_pos hcond]
      rfl
    · rw [ht]
      show (slowTracker c span selfIdx
          (store.findCommonAncestor [span.idLast] c.head) store).start_counter = _
      rw [hst.2]
      unfold trackerAndHead
      rw [if_pos hcond]
      rfl
  · intro hcond
    constructor
    · rw [ht]
      show (slowTracker c span selfIdx
          (store.findCommonAncestor [span.idLast] c.head) store).start_vv = _
      rw [hst.1]
      unfold trackerAndHead
      rw [hcond]
      simp only [Bool.false_eq_true, if_false]
      rfl
    · rw [ht]
      show (slowTracker c span selfIdx
          (store.findCommonAncestor [span.idLast] c.head) store).start_counter = _
      rw [hst.2]
      unfold trackerAndHead
      rw [hcond]
      simp only [Bool.false_eq_true, if_false]
      rfl

/-- C5 witness: both slow-path entries, concretely.  In the `exC3` merge
(entered with common ancestors {(0,0)} differing from the head) and in the
`exC5` merge (entered by fall-through: ancestors equal the head but the
two-span path needs a retreat) the reset test fires, and
`apply_tracker_reset_policy` pins the resulting trackers to the respective
ancestor versions with offset 1073741823 = `Counter::MAX / 2`. -/
theorem apply_tracker_reset_policy_witness :
    (exC3.applyC ⟨0, 0, 1⟩ exStore3 fxNil = some exC3res ∧
      trackerResetCond exC3
          (exStore3.findCommonAncestor [IdSpan.idLast ⟨0, 0, 1⟩] exC3.head) = true ∧
      exC3res.tracker.start_vv = ⟨[(0, 1)]⟩ ∧
      exC3res.tracker.start_counter = 1073741823) ∧
      (exC5.applyC ⟨2, 0, 1⟩ exStore5 fxNil = some exC5res ∧
        exStore5.findCommonAncestor [IdSpan.idLast ⟨2, 0, 1⟩] exC5.head = exC5.head ∧
        trackerResetCond exC5
            (exStore5.findCommonAncestor [IdSpan.idLast ⟨2, 0, 1⟩] exC5.head) = true ∧
        exC5res.tracker.start_vv = ⟨[(0, 2)]⟩ ∧
        exC5res.tracker.start_counter = 1073741823) := by
  constructor
  · have hs : exC3.applyC ⟨0, 0, 1⟩ exStore3 fxNil = some exC3res := by decide
    have h := apply_tracker_reset_policy exC3 ⟨0, 0, 1⟩ exStore3 fxNil exC3res
      (Or.inl (by decide)) hs
    refine ⟨hs, by decide, ?_, ?_⟩
    · rw [(h.1 (by decide)).1]
      decide
    · rw [(h.1 (by decide)).2]
      decide
  · have hs : exC5.applyC ⟨2, 0, 1⟩ exStore5 fxNil = some exC5res := by decide
    have h := apply_tracker_reset_policy exC5 ⟨2, 0, 1⟩ exStore5 fxNil exC5res
      (Or.inr ⟨by decide, by decide⟩) hs
    refine ⟨hs, by decide, by decide, ?_, ?_⟩
    · rw [(h.1 (by decide)).1]
      decide
    · rw [(h.1 (by decide)).2]
      decide

/-- C6: export/import round-trip.  For a local insert op whose slice is a
`Slice` range valid in this container's pool, `to_import` applied to the
result of `to_export` yields an op whose variant is again `Slice`, whose
other fields are unchanged, and whose new pool range references exactly the
bytes the original range referenced (the range itself may differ). -/
theorem to_export_to_import_round_trip (c : TextContainer) (op : Op)
    (r : Nat × Nat) (pos : Nat)
    (hop : op.content = .Normal (.Insert (.Slice r) pos))
    (_hr1 : r.1 ≤ r.2) (_hr2 : r.2 ≤ c.raw_str.length) :
    ∃ c' op' r',
      c.to_import (c.to_export op) = some (c', op') ∧
        op'.content = OpContent.Normal (.Insert (.Slice r') pos) ∧
        op'.client_id = op.client_id ∧
        op'.counter = op.counter ∧
        op'.container = op.container ∧
        StringPool.getStr c'.raw_str r' = StringPool.getStr c.raw_str r := by
  obtain ⟨cl, ct, cn, content⟩ := op
  simp only at hop
  subst hop
  refine ⟨_, _,
    (c.raw_str.length, c.raw_str.length + (StringPool.getStr c.raw_str r).length),
    rfl, rfl, rfl, rfl, rfl, ?_⟩
  show StringPool.getStr (c.raw_str ++ StringPool.getStr c.raw_str r)
      (c.raw_str.length, c.raw_str.length + (StringPool.getStr c.raw_str r).length)
      = StringPool.getStr c.raw_str r
  unfold StringPool.getStr
  simp only
  rw [List.drop_left, Nat.add_sub_cancel_left, List.take_length]

/-- C6 witness: the container `exC4` (pool [98, 97]) round-trips the local
insert op over range (0, 1): the reimported range is (2, 3), a fresh range
referencing the same byte. -/
theorem to_export_to_import_round_trip_witness :
    ∃ c' op' r',
      exC4.to_import (exC4.to_export ⟨0, 0, 0, .Normal (.Insert (.Slice (0, 1)) 0)⟩)
          = some (c', op') ∧
        op'.content = OpContent.Normal (.Insert (.Slice r') 0) ∧
        op'.client_id = (0 : ClientID) ∧
        op'.counter = (0 : Int) ∧
        op'.container = 0 ∧
        StringPool.getStr c'.raw_str r' = StringPool.getStr exC4.raw_str (0, 1) :=
  to_export_to_import_round_trip exC4 ⟨0, 0, 0, .Normal (.Insert (.Slice (0, 1)) 0)⟩
    (0, 1) 0 rfl (by decide) (by decide)

/-- C7: insert no-op contract.  `insert(pos, text)` returns `None` exactly
when `text` is empty, and then the container and store are returned
unchanged (visible state, pool, head and vv untouched); every terminating
call on non-empty text returns `Some` of the id freshly minted by
`store.next_id()`. -/
theorem insert_none_iff_empty (c : TextContainer) (s : LocalStore) (pos : Nat)
    (text : List Nat) :
    (text = [] → c.insertOp s pos text = some ((c, s), none)) ∧
      (∀ r, c.insertOp s pos text = some r → (r.2 = none ↔ text = [])) ∧
      (∀ r, c.insertOp s pos text = some r → text ≠ [] → r.2 = some s.nextId) := by
  cases text with
  | nil =>
    refine ⟨fun _ => rfl, fun r h => ?_, fun r h hne => absurd rfl hne⟩
    have hr : ((c, s), (none : Option ID)) = r := by
      unfold TextContainer.insertOp at h
      exact Option.some.inj h
    rw [← hr]
    simp
  | cons hd tl =>
    refine ⟨fun h => absurd h (by simp), fun r h => ?_, fun r h hne => ?_⟩
    · unfold TextContainer.insertOp at h
      rw [if_neg (by simp), Option.map_eq_some'] at h
      obtain ⟨st, -, rfl⟩ := h
      simp
    · unfold TextContainer.insertOp at h
      rw [if_neg (by simp), Option.map_eq_some'] at h
      obtain ⟨st, -, rfl⟩ := h
      rfl

/-- C7 witness: inserting the empty text is the identity returning `None`;
inserting two bytes returns `Some (5, 0)`, the freshly minted id of the
store with client 5 and next counter 0. -/
theorem insert_none_iff_empty_witness :
    (TextContainer.new 0).insertOp ⟨5, 0, [], []⟩ 0 []
        = some ((TextContainer.new 0, ⟨5, 0, [], []⟩), none) ∧
      ((TextContainer.new 0).insertOp ⟨5, 0, [], []⟩ 0 [104, 105]).map (fun r => r.2)
        = some (some ⟨5, 0⟩) := by
  constructor
  · exact (insert_none_iff_empty (TextContainer.new 0) ⟨5, 0, [], []⟩ 0 []).1 rfl
  · have h3 := (insert_none_iff_empty (TextContainer.new 0) ⟨5, 0, [], []⟩ 0 [104, 105]).2.2
    cases heq : (TextContainer.new 0).insertOp ⟨5, 0, [], []⟩ 0 [104, 105] with
    | none => exact absurd heq (by decide)
    | some r =>
      simp only [h3 r heq (by decide), Option.map_some']
      rfl

/-- C8: delete contract.  `delete(pos, len)` returns `None` exactly when
`len = 0`, leaving container and store unchanged in that case; for positive
`len` with `pos + len ≤ text_len()` it removes exactly `len` positions
starting at `pos` (the visible length shrinks by `len`) and returns `Some`
of the newly minted op id. -/
theorem delete_none_iff_zero (c : TextContainer) (s : LocalStore) (pos len : Nat) :
    (len = 0 → c.deleteOp s pos len = some ((c, s), none)) ∧
      (∀ r, c.deleteOp s pos len = some r → (r.2 = none ↔ len = 0)) ∧
      (0 < len → pos + len ≤ c.text_len →
        ∃ c' s', c.deleteOp s pos len = some ((c', s'), some s.nextId) ∧
          c'.text_len = c.text_len - len) := by
  refine ⟨?_, ?_, ?_⟩
  · intro h
    subst h
    rfl
  · intro r h
    by_cases hl : len = 0
    · subst hl
      unfold TextContainer.deleteOp at h
      have hr := Option.some.inj h
      rw [← hr]
      simp
    · unfold TextContainer.deleteOp at h
      rw [if_neg hl, Option.map_eq_some'] at h
      obtain ⟨st, -, rfl⟩ := h
      simp [hl]
  · intro hpos hle
    have hPosLe : pos ≤ c.state.length :=
      Nat.le_trans (Nat.le_add_right _ _) hle
    have hd : seqDeleteRange c.state pos (pos + len)
        = some (c.state.take pos ++ c.state.drop (pos + len)) := by
      unfold seqDeleteRange
      rw [if_pos ⟨Nat.le_add_right _ _, hle⟩]
    refine ⟨{ c with
        state := c.state.take pos ++ c.state.drop (pos + len),
        head := [⟨s.this_client_id, s.next_counter + (len : Int) - 1⟩],
        vv := c.vv.set_last ⟨s.this_client_id, s.next_counter + (len : Int) - 1⟩ },
      (s.getOrCreateContainerIdx c.id).2.appendLocalOps
        [⟨s.this_client_id, s.next_counter, (s.getOrCreateContainerIdx c.id).1,
          .Normal (.Delete pos len)⟩], ?_, ?_⟩
    · unfold TextContainer.deleteOp
      rw [if_neg (Nat.pos_iff_ne_zero.mp hpos), hd]
      rfl
    · show (c.state.take pos ++ c.state.drop (pos + len)).length = c.state.length - len
      have hle' : pos + len ≤ c.state.length := hle
      rw [List.length_append, List.length_take, List.length_drop,
        Nat.min_eq_left hPosLe]
      omega

/-- C8 witness: deleting zero positions of `wC1res` is the identity
returning `None`; deleting one position at 0 of the one-element state
shrinks the length from 1 to 0 and returns `Some (5, 7)`. -/
theorem delete_none_iff_zero_witness :
    wC1res.deleteOp ⟨5, 7, [], []⟩ 0 0 = some ((wC1res, ⟨5, 7, [], []⟩), none) ∧
      (wC1res.deleteOp ⟨5, 7, [], []⟩ 0 1).map (fun r => (r.1.1.text_len, r.2))
        = some (0, some ⟨5, 7⟩) := by
  constructor
  · exact (delete_none_iff_zero wC1res ⟨5, 7, [], []⟩ 0 0).1 rfl
  · obtain ⟨c', s', heq, hlen⟩ :=
      (delete_none_iff_zero wC1res ⟨5, 7, [], []⟩ 0 1).2.2 (by decide) (by decide)
    rw [heq]
    simp only [Option.map_some']
    rw [hlen]
    rfl

/-- C9: local-edit frontier collapse.  After every successful local insert
or delete (one returning `Some`), the head is exactly the one-element
frontier holding the last atom of the new op — counter `next_counter +
length − 1` of the minting client — whatever the head held before, and the
vv includes that last id. -/
theorem local_edit_head_collapse :
    (∀ (c : TextContainer) (s : LocalStore) (pos : Nat) (text : List Nat)
        (c' : TextContainer) (s' : LocalStore) (i : ID),
        c.insertOp s pos text = some ((c', s'), some i) →
        c'.head = [⟨s.this_client_id, s.next_counter + (text.length : Int) - 1⟩] ∧
          c'.vv.includes_id ⟨s.this_client_id, s.next_counter + (text.length : Int) - 1⟩
            = true) ∧
      (∀ (c : TextContainer) (s : LocalStore) (pos len : Nat)
          (c' : TextContainer) (s' : LocalStore) (i : ID),
          c.deleteOp s pos len = some ((c', s'), some i) →
          c'.head = [⟨s.this_client_id, s.next_counter + (len : Int) - 1⟩] ∧
            c'.vv.includes_id ⟨s.this_client_id, s.next_counter + (len : Int) - 1⟩
              = true) := by
  constructor
  · intro c s pos text c' s' i h
    cases text with
    | nil =>
      have h2 := Option.some.inj h
      have h3 := congrArg Prod.snd h2
      simp at h3
    | cons hd tl =>
      unfold TextContainer.insertOp at h
      rw [if_neg (by simp), Option.map_eq_some'] at h
      obtain ⟨st, -, h⟩ := h
      have hc : c' = _ := (congrArg (fun x => x.1.1) h).symm
      have hlen : (ListSlice.Slice (StringPool.alloc c.raw_str (hd :: tl)).1).sliceLen
          = (hd :: tl).length := by
        show (c.raw_str.length + (hd :: tl).length) - c.raw_str.length = (hd :: tl).length
        omega
      rw [hc]
      constructor
      · show [(⟨s.this_client_id,
            s.next_counter + ((ListSlice.Slice
              (StringPool.alloc c.raw_str (hd :: tl)).1).sliceLen : Int) - 1⟩ : ID)] = _
        rw [hlen]
      · show (c.vv.set_last ⟨s.this_client_id,
            s.next_counter + ((ListSlice.Slice
              (StringPool.alloc c.raw_str (hd :: tl)).1).sliceLen : Int) - 1⟩).includes_id
            ⟨s.this_client_id, s.next_counter + ((hd :: tl).length : Int) - 1⟩ = true
        rw [hlen]
        have hg : (c.vv.set_last ⟨s.this_client_id,
            s.next_counter + ((hd :: tl).length : Int) - 1⟩).get s.this_client_id
            = s.next_counter + ((hd :: tl).length : Int) - 1 + 1 := vvGet_set_self _ _ _
        show decide (s.next_counter + ((hd :: tl).length : Int) - 1
            < (c.vv.set_last ⟨s.this_client_id,
                s.next_counter + ((hd :: tl).length : Int) - 1⟩).get s.this_client_id) = true
        rw [hg]
        exact decide_eq_true (lt_add_one _)
  · intro c s pos len c' s' i h
    by_cases hl : len = 0
    · subst hl
      have h2 := Option.some.inj h
      have h3 := congrArg Prod.snd h2
      simp at h3
    · unfold TextContainer.deleteOp at h
      rw [if_neg hl, Option.map_eq_some'] at h
      obtain ⟨st, -, h⟩ := h
      have hc : c' = _ := (congrArg (fun x => x.1.1) h).symm
      rw [hc]
      refine ⟨rfl, ?_⟩
      have hg : (c.vv.set_last ⟨s.this_client_id,
          s.next_counter + (len : Int) - 1⟩).get s.this_client_id
          = s.next_counter + (len : Int) - 1 + 1 := vvGet_set_self _ _ _
      show decide (s.next_counter + (len : Int) - 1
          < (c.vv.set_last ⟨s.this_client_id,
              s.next_counter + (len : Int) - 1⟩).get s.this_client_id) = true
      rw [hg]
      exact decide_eq_true (lt_add_one _)

/-- C9 witness: a two-byte insert by client 5 at counter 0 collapses the
head to [(5, 1)], and a one-position delete minted at counter 7 collapses
it to [(5, 7)], both recorded in the vv, by `local_edit_head_collapse` at
concrete inputs. -/
theorem local_edit_head_collapse_witness :
    (TextContainer.new 0).insertOp ⟨5, 0, [], []⟩ 0 [104, 105]
        = some ((⟨0, [0, 1], [104, 105], Tracker.new ⟨[]⟩ 0, [⟨5, 1⟩], ⟨[(5, 2)]⟩⟩,
            ⟨5, 2, [0], [⟨5, 0, 0, .Normal (.Insert (.Slice (0, 2)) 0)⟩]⟩), some ⟨5, 0⟩) ∧
      (⟨0, [0, 1], [104, 105], Tracker.new ⟨[]⟩ 0, [⟨5, 1⟩], ⟨[(5, 2)]⟩⟩ :
          TextContainer).head = [⟨5, 1⟩] ∧
      (⟨0, [0, 1], [104, 105], Tracker.new ⟨[]⟩ 0, [⟨5, 1⟩], ⟨[(5, 2)]⟩⟩ :
          TextContainer).vv.includes_id ⟨5, 1⟩ = true ∧
      wC1res.deleteOp ⟨5, 7, [], []⟩ 0 1
        = some ((⟨0, [], [97], Tracker.new ⟨[]⟩ 0, [⟨5, 7⟩], ⟨[(0, 1), (5, 8)]⟩⟩,
            ⟨5, 8, [0], [⟨5, 7, 0, .Normal (.Delete 0 1)⟩]⟩), some ⟨5, 7⟩) ∧
      (⟨0, [], [97], Tracker.new ⟨[]⟩ 0, [⟨5, 7⟩], ⟨[(0, 1), (5, 8)]⟩⟩ :
          TextContainer).head = [⟨5, 7⟩] ∧
      (⟨0, [], [97], Tracker.new ⟨[]⟩ 0, [⟨5, 7⟩], ⟨[(0, 1), (5, 8)]⟩⟩ :
          TextContainer).vv.includes_id ⟨5, 7⟩ = true := by
  have heqi : (TextContainer.new 0).insertOp ⟨5, 0, [], []⟩ 0 [104, 105]
      = some ((⟨0, [0, 1], [104, 105], Tracker.new ⟨[]⟩ 0, [⟨5, 1⟩], ⟨[(5, 2)]⟩⟩,
          ⟨5, 2, [0], [⟨5, 0, 0, .Normal (.Insert (.Slice (0, 2)) 0)⟩]⟩), some ⟨5, 0⟩) := by
    decide
  have heqd : wC1res.deleteOp ⟨5, 7, [], []⟩ 0 1
      = some ((⟨0, [], [97], Tracker.new ⟨[]⟩ 0, [⟨5, 7⟩], ⟨[(0, 1), (5, 8)]⟩⟩,
          ⟨5, 8, [0], [⟨5, 7, 0, .Normal (.Delete 0 1)⟩]⟩), some ⟨5, 7⟩) := by
    decide
  have hi := local_edit_head_collapse.1 (TextContainer.new 0) ⟨5, 0, [], []⟩ 0
    [104, 105] _ _ _ heqi
  have hd := local_edit_head_collapse.2 wC1res ⟨5, 7, [], []⟩ 0 1 _ _ _ heqd
  refine ⟨heqi, hi.1.trans (by decide), ?_, heqd, hd.1.trans (by decide), ?_⟩
  · exact (congrArg _ (by decide)).trans hi.2
  · exact (congrArg _ (by decide)).trans hd.2

/-- C10: `RawStore::verify` vacuous-success and undercount branches.  With
no MAC table present, `verify` returns `true` without reading (or changing)
anything; with a MAC table holding strictly fewer entries than there are
clients in the changes map, it returns `false`, again leaving the store
untouched. -/
theorem verify_no_mac_and_undercount (hf : Nat → Option Nat → Nat) (pk : List Nat)
    (s : RawStore) :
    (s.maced = false → s.verify hf pk = some (true, s)) ∧
      (∀ m, s.macs = some m → m.length < s.changes.length →
        s.verify hf pk = some (false, s)) := by
  constructor
  · intro h
    unfold RawStore.maced at h
    unfold RawStore.verify
    cases hm : s.macs with
    | none => rfl
    | some m =>
      rw [hm] at h
      simp at h
  · intro m hm hlt
    unfold RawStore.verify
    rw [hm]
    show (if m.length < s.changes.length then some (false, s) else _) = some (false, s)
    rw [if_pos hlt]

/-- C10 witness: the fresh store (no MAC table) verifies to `true`; a store
with one client of changes but an empty MAC table verifies to `false`. -/
theorem verify_no_mac_and_undercount_witness :
    RawStore.new.verify (fun d _ => d) [] = some (true, RawStore.new) ∧
      (⟨[(0, [⟨0, none⟩])], some []⟩ : RawStore).verify (fun d _ => d) []
        = some (false, ⟨[(0, [⟨0, none⟩])], some []⟩) := by
  constructor
  · exact (verify_no_mac_and_undercount (fun d _ => d) [] RawStore.new).1 rfl
  · exact (verify_no_mac_and_undercount (fun d _ => d) [] _).2 [] rfl (by decide)
